import Mathlib

/-
Verification of the sports-analytic-platform repository: a shallow embedding
of the odds-ingestion proxy (server.js) and of the frontend win-probability
calculator (SportsAnalyticWeb.jsx), with theorems about the embedded code.

Modelling conventions:
  * JavaScript numbers are modelled exactly: moneyline prices are `Int`,
    probability arithmetic is over `ℚ` (the JS code only adds, negates,
    divides and multiplies, so the rational model is exact; the "up to
    floating-point epsilon" clauses of the spec become exact equalities).
  * A JavaScript object used as a string-keyed map is modelled as an
    association list in insertion order; property update overwrites in
    place, property creation appends.
  * A thrown TypeError is modelled by `Except.error` with a message that
    names the failing access.  Optional chaining (`?.`) short-circuits only
    at the position where it is written, exactly as in JavaScript.
  * `Math.random()`-derived display fields cannot be embedded
    deterministically; they are abstracted by an oracle `mk` that supplies
    the randomized `MockStats` for each created team view.  No claim
    mentions those fields.
-/

namespace SportsAnalytic

/-! ## Frontend: win-probability calculator (SportsAnalyticWeb.jsx) -/

/-- One team record as consumed by the frontend calculator: `id`, `name`,
and an optional `upcomingGame` holding opponent and moneyline. -/
structure UpcomingGame where
  opponent : String
  moneyline : Int
deriving DecidableEq

/-- Frontend team shape: only the fields `calculateWinProbabilityFromOdds`
reads (`id`, `name`, `upcomingGame`). -/
structure FTeam where
  id : String
  name : String
  upcomingGame : Option UpcomingGame
deriving DecidableEq

/-- Result object of the calculator: a JS object literal with the two
computed keys (in insertion order, later key overwriting earlier on
collision) plus the `insight` string. -/
structure WinProbResult where
  entries : List (String × ℚ)
  insight : String
deriving DecidableEq

/-- Lookup in a JS object literal built from dynamic keys: the LAST
assignment to a key wins. -/
def WinProbResult.lookup (r : WinProbResult) (k : String) : Option ℚ :=
  (r.entries.reverse.find? (fun p => p.1 == k)).map Prod.snd

/-- American odds to raw implied probability, from
`convertAmericanToProbability` in SportsAnalyticWeb.jsx:
`odds > 0 ? 100/(odds+100) : (-odds)/((-odds)+100)`. -/
def convertAmericanToProbability (odds : Int) : ℚ :=
  if odds > 0 then 100 / ((odds : ℚ) + 100)
  else (-(odds : ℚ)) / (-(odds : ℚ) + 100)

/-- JavaScript `Math.round`: round half toward positive infinity. -/
def jsRound (q : ℚ) : Int := ⌊q + 1 / 2⌋

/-- The probability model of SportsAnalyticWeb.jsx
(`calculateWinProbabilityFromOdds`): guard for missing odds, raw implied
probabilities, normalization to a 100% split, and the insight string. -/
def calculateWinProbabilityFromOdds (teamA teamB : FTeam) : WinProbResult :=
  match teamA.upcomingGame, teamB.upcomingGame with
  | some gA, some gB =>
    let probA := convertAmericanToProbability gA.moneyline
    let probB := convertAmericanToProbability gB.moneyline
    let totalProb := probA + probB
    let normalizedProbA := probA / totalProb * 100
    let normalizedProbB := probB / totalProb * 100
    { entries := [(teamA.id, normalizedProbA), (teamB.id, normalizedProbB)]
      insight :=
        "The betting market implies a " ++
        toString (jsRound (if normalizedProbA > normalizedProbB then normalizedProbA
                           else normalizedProbB)) ++
        "% chance for the favorite, the " ++
        (if normalizedProbA > normalizedProbB then teamA.name else teamB.name) ++
        ", to win." }
  | _, _ =>
    { entries := [(teamA.id, 50), (teamB.id, 50)]
      insight := "Odds data not available." }

/-! ## Backend: raw odds data and the view transformer (server.js) -/

/-- One outcome of a bookmaker market: a team name and an American-odds
price. -/
structure Outcome where
  name : String
  price : Int
deriving DecidableEq

/-- One bookmaker market: a market key (for example "h2h") and its list of
outcomes. -/
structure Market where
  key : String
  outcomes : List Outcome
deriving DecidableEq

/-- One bookmaker record.  The `markets` array may be missing in malformed
input (`none` models an absent JS property). -/
structure Bookmaker where
  markets : Option (List Market)
deriving DecidableEq

/-- One raw game from the upstream odds API.  The `bookmakers` array may be
missing in malformed input. -/
structure RawGame where
  bookmakers : Option (List Bookmaker)
deriving DecidableEq

/-- Mocked quantitative analytics block of a team view (all four fields come
from `Math.random`, abstracted by the oracle). -/
structure Quantitative where
  offensiveRating : String
  defensiveRating : String
  netRating : String
  pace : String
deriving DecidableEq

/-- Static qualitative block of a team view (constant strings in the
source). -/
structure Qualitative where
  managementStability : String
  coachingSystem : String
  playerMorale : String
  marketSentiment : String
deriving DecidableEq

/-- One point of the mocked performance-history series. -/
structure PerfPoint where
  name : String
  value : ℚ
deriving DecidableEq

/-- The `Math.random`-derived display fields of a team view, supplied by an
oracle because they are nondeterministic in the source. -/
structure MockStats where
  change : ℚ
  changePercent : ℚ
  marketCap : String
  volume : String
  performanceHistory : List PerfPoint
  quantitative : Quantitative
deriving DecidableEq

/-- The per-team view model produced by `transformDataForFrontend`. -/
structure TeamView where
  id : String
  name : String
  conference : String
  price : Int
  mock : MockStats
  qualitative : Qualitative
  upcomingGame : UpcomingGame
deriving DecidableEq

/-- An oracle supplying the randomized display fields of a freshly created
team view, given team name, opposing team name and price. -/
def MockOracle : Type := String → String → Int → MockStats

/-- A trivial oracle used to instantiate concrete examples. -/
def mkZero : MockOracle := fun _ _ _ =>
  { change := 0, changePercent := 0, marketCap := "", volume := ""
    performanceHistory := [], quantitative := ⟨"", "", "", ""⟩ }

/-- Team-id normalization from `processTeam` in server.js:
`teamName.toLowerCase().replace(space, empty)` — lowercase, then remove every
space character (replacing each by the empty string is removal, modelled as
a filter so that the definition reduces). -/
def normalizeId (teamName : String) : String :=
  String.mk ((teamName.data.map Char.toLower).filter (fun c => c != ' '))

/-- The body of `processTeam` in server.js: derive the normalized id and, if
the id is not yet a key of the result object, append a fresh team view built
from this outcome (`market`).  If the id is already present, the object is
left untouched. -/
def processTeam (mk : MockOracle) (teamName opposingTeamName : String)
    (market : Outcome) (teamsData : List (String × TeamView)) :
    List (String × TeamView) :=
  let teamId := normalizeId teamName
  if (teamsData.lookup teamId).isSome then teamsData
  else
    teamsData ++ [(teamId,
      { id := teamId
        name := teamName
        conference := "N/A"
        price := market.price
        mock := mk teamName opposingTeamName market.price
        qualitative :=
          { managementStability := "Medium"
            coachingSystem := "Established"
            playerMorale := "Optimistic"
            marketSentiment := "Neutral" }
        upcomingGame := { opponent := opposingTeamName
                          moneyline := market.price } })]

/-- The per-game body of the `forEach` in `transformDataForFrontend`.
`Except.error` models a thrown TypeError:
`game.bookmakers[0]?.markets.find(m => m.key === "h2h")` throws when
`bookmakers` is missing (subscripting `undefined`) and when the first
bookmaker exists but its `markets` is missing (the optional chain only
guards `bookmakers[0]` itself); an empty `bookmakers` array short-circuits
to `undefined` and the game is skipped.  Accessing `outcomes[0].name` or
`outcomes[1].name` on a market with fewer than two outcomes also throws. -/
def processGame (mk : MockOracle) (teamsData : List (String × TeamView))
    (game : RawGame) : Except String (List (String × TeamView)) :=
  match game.bookmakers with
  | none => .error "TypeError: cannot index undefined bookmakers"
  | some bms =>
    match bms.head? with
    | none => .ok teamsData
    | some bm =>
      match bm.markets with
      | none => .error "TypeError: cannot call find on undefined markets"
      | some ms =>
        match ms.find? (fun m => m.key == "h2h") with
        | none => .ok teamsData
        | some moneylineMarket =>
          match moneylineMarket.outcomes[0]?, moneylineMarket.outcomes[1]? with
          | some team1, some team2 =>
            .ok (processTeam mk team2.name team1.name team2
              (processTeam mk team1.name team2.name team1 teamsData))
          | _, _ => .error "TypeError: cannot read name of undefined outcome"

/-- The transformer `transformDataForFrontend` of server.js: fold the
per-game processing over the batch, starting from an empty result object; a
thrown TypeError aborts the whole pass. -/
def transformDataForFrontend (mk : MockOracle) (apiData : List RawGame) :
    Except String (List (String × TeamView)) :=
  apiData.foldlM (processGame mk) []

/-! ## Backend: cache, cache key and the nba-data request handler (server.js) -/

/-- One cache entry as stored by `setCachedData`: the payload and the
millisecond timestamp of the store. -/
structure CacheEntry (A : Type) where
  data : A
  timestamp : Int
deriving DecidableEq

/-- JS `Map.set`: overwrite the value in place when the key is present,
append a fresh entry otherwise. -/
def mapSet {β : Type} (l : List (String × β)) (k : String) (e : β) :
    List (String × β) :=
  if (l.lookup k).isSome then
    l.map (fun p => if p.1 == k then (p.1, e) else p)
  else l ++ [(k, e)]

/-- JS `Map.delete`: remove the entry for the key (no-op when absent). -/
def mapDelete {β : Type} (l : List (String × β)) (k : String) :
    List (String × β) :=
  l.filter (fun p => !(p.1 == k))

/-- The cache read `getCachedData` of server.js, with the current time and
the configuration passed explicitly; it returns the result together with the
possibly-changed cache (the `cache.delete(key)` on miss or expiry). -/
def getCachedData {A : Type} (enableCache : Bool) (cacheTtl : Int) (now : Int)
    (cache : List (String × CacheEntry A)) (key : String) :
    Option A × List (String × CacheEntry A) :=
  if !enableCache then (none, cache)
  else
    match cache.lookup key with
    | some cached =>
      if now - cached.timestamp < cacheTtl * 1000 then (some cached.data, cache)
      else (none, mapDelete cache key)
    | none => (none, mapDelete cache key)

/-- The cache write `setCachedData` of server.js: a no-op when caching is
disabled, otherwise store the payload with the current timestamp. -/
def setCachedData {A : Type} (enableCache : Bool) (now : Int)
    (cache : List (String × CacheEntry A)) (key : String) (data : A) :
    List (String × CacheEntry A) :=
  if !enableCache then cache
  else mapSet cache key ⟨data, now⟩

/-- Comma-joining of the serialized properties, as in the output of
`JSON.stringify` on a flat object. -/
def joinComma : List String → String
  | [] => ""
  | [s] => s
  | s :: rest => s ++ "," ++ joinComma rest

/-- `JSON.stringify` on a flat string-valued object: properties are
serialized in insertion order. -/
def jsonStringifyObj (params : List (String × String)) : String :=
  "\x7b" ++
    joinComma (params.map (fun p => "\"" ++ p.1 ++ "\":\"" ++ p.2 ++ "\"")) ++
  "\x7d"

/-- The cache-key function of server.js:
`(endpoint, params) => endpoint + ":" + JSON.stringify(params)`. -/
def getCacheKey (endpoint : String) (params : List (String × String)) :
    String :=
  endpoint ++ ":" ++ jsonStringifyObj params

/-- JS truthiness of `config.apiKey`: an absent or empty string is falsy. -/
def jsTruthyStr : Option String → Bool
  | none => false
  | some s => !(s == "")

/-- The environment-derived configuration object of server.js (the selector
strings are passed verbatim to the upstream client). -/
structure Config where
  apiKey : Option String
  sport : String
  regions : String
  markets : String
  oddsFormat : String
  cacheTtl : Int
  enableCache : Bool

/-- Outcome of the upstream axios call, as distinguished by the catch block
of the endpoint handler: a game list, a timeout (`ECONNABORTED`), a non-2xx
response with status and optional message, or another network error. -/
inductive UpstreamResult where
  | ok (games : List RawGame)
  | timeout
  | httpError (status : Nat) (message : Option String)
  | netError

/-- A JSON response body: a team-view payload, an error object with `error`
and `message` fields, or a plain message object. -/
inductive ResponseBody where
  | payload (d : List (String × TeamView))
  | failure (error : String) (message : String)
  | note (message : String)

/-- What one request to `/api/v1/nba-data` produces: HTTP status, body, the
cache state afterwards, and whether the upstream provider was called. -/
structure HandlerResult where
  status : Nat
  body : ResponseBody
  cacheOut : List (String × CacheEntry (List (String × TeamView)))
  upstreamCalled : Bool

/-- The `/api/v1/nba-data` handler of server.js: cache lookup, credential
check, upstream call (an oracle argument here), empty-result check,
transform, cache store, and the error taxonomy of the catch block. -/
def nbaDataHandler (cfg : Config) (now : Int)
    (cache : List (String × CacheEntry (List (String × TeamView))))
    (query : List (String × String)) (upstream : UpstreamResult)
    (mk : MockOracle) : HandlerResult :=
  let cacheKey := getCacheKey "nba-data" query
  let gc := getCachedData cfg.enableCache cfg.cacheTtl now cache cacheKey
  match gc.1 with
  | some d =>
    { status := 200, body := .payload d, cacheOut := gc.2
      upstreamCalled := false }
  | none =>
    if !(jsTruthyStr cfg.apiKey) then
      { status := 500
        body := .failure "API key not configured"
          "Please set ODDS_API_KEY environment variable"
        cacheOut := gc.2, upstreamCalled := false }
    else
      match upstream with
      | .ok games =>
        if games.isEmpty then
          { status := 404, body := .note "No upcoming NBA games found."
            cacheOut := gc.2, upstreamCalled := true }
        else
          match transformDataForFrontend mk games with
          | .ok fd =>
            { status := 200, body := .payload fd
              cacheOut := setCachedData cfg.enableCache now gc.2 cacheKey fd
              upstreamCalled := true }
          | .error _ =>
            { status := 500
              body := .failure "Internal server error"
                "An unexpected error occurred"
              cacheOut := gc.2, upstreamCalled := true }
      | .timeout =>
        { status := 504
          body := .failure "Request timeout"
            "The odds API is taking too long to respond"
          cacheOut := gc.2, upstreamCalled := true }
      | .httpError s msg =>
        { status := s
          body := .failure "External API error"
            (msg.getD "Failed to fetch data from The Odds API")
          cacheOut := gc.2, upstreamCalled := true }
      | .netError =>
        { status := 500
          body := .failure "Internal server error"
            "An unexpected error occurred"
          cacheOut := gc.2, upstreamCalled := true }

/-! ## Theorems -/

/-- A nonzero American moneyline has a strictly positive raw implied
probability (both conversion branches have positive numerator and
denominator). -/
theorem convertAmericanToProbability_pos (odds : Int) (h : odds ≠ 0) :
    0 < convertAmericanToProbability odds := by
  unfold convertAmericanToProbability
  by_cases hpos : odds > 0
  · rw [if_pos hpos]
    have h1 : (0 : ℚ) < (odds : ℚ) + 100 := by
      have : (0 : ℚ) < (odds : ℚ) := by exact_mod_cast hpos
      linarith
    positivity
  · rw [if_neg hpos]
    have hneg : odds < 0 := lt_of_le_of_ne (le_of_not_lt hpos) h
    have h1 : (0 : ℚ) < -(odds : ℚ) := by
      have : (odds : ℚ) < 0 := by exact_mod_cast hneg
      linarith
    have h2 : (0 : ℚ) < -(odds : ℚ) + 100 := by linarith
    positivity

/-- C1: for every pair of teams with upcoming-game odds whose moneylines are
valid nonzero American odds, the calculator returns two percentages (one per
team id) whose sum is exactly 100 in the rational model, because each raw
implied probability is divided by the sum of the two raw probabilities and
multiplied by 100. -/
theorem winProbability_sums_to_100 (teamA teamB : FTeam) (gA gB : UpcomingGame)
    (hA : teamA.upcomingGame = some gA) (hB : teamB.upcomingGame = some gB)
    (hA0 : gA.moneyline ≠ 0) (hB0 : gB.moneyline ≠ 0)
    (hid : teamA.id ≠ teamB.id) :
    ∃ pA pB : ℚ,
      (calculateWinProbabilityFromOdds teamA teamB).lookup teamA.id = some pA ∧
      (calculateWinProbabilityFromOdds teamA teamB).lookup teamB.id = some pB ∧
      pA + pB = 100 := by
  have hpA := convertAmericanToProbability_pos gA.moneyline hA0
  have hpB := convertAmericanToProbability_pos gB.moneyline hB0
  have hBA : (teamB.id == teamA.id) = false := by
    simp [hid.symm]
  have hAA : (teamA.id == teamA.id) = true := by simp
  have hBB : (teamB.id == teamB.id) = true := by simp
  refine ⟨convertAmericanToProbability gA.moneyline /
            (convertAmericanToProbability gA.moneyline +
             convertAmericanToProbability gB.moneyline) * 100,
          convertAmericanToProbability gB.moneyline /
            (convertAmericanToProbability gA.moneyline +
             convertAmericanToProbability gB.moneyline) * 100, ?_, ?_, ?_⟩
  · simp [calculateWinProbabilityFromOdds, hA, hB, WinProbResult.lookup,
      List.find?, hBA, hAA]
  · simp [calculateWinProbabilityFromOdds, hA, hB, WinProbResult.lookup,
      List.find?, hBB]
  · have htot : convertAmericanToProbability gA.moneyline +
        convertAmericanToProbability gB.moneyline ≠ 0 := by positivity
    field_simp
    ring

/-- C1 witness: a concrete pair of teams with moneylines +150 and −200. -/
theorem winProbability_sums_to_100_witness :
    ∃ pA pB : ℚ,
      (calculateWinProbabilityFromOdds ⟨"a", "A", some ⟨"b", 150⟩⟩
        ⟨"b", "B", some ⟨"a", -200⟩⟩).lookup "a" = some pA ∧
      (calculateWinProbabilityFromOdds ⟨"a", "A", some ⟨"b", 150⟩⟩
        ⟨"b", "B", some ⟨"a", -200⟩⟩).lookup "b" = some pB ∧
      pA + pB = 100 :=
  winProbability_sums_to_100 ⟨"a", "A", some ⟨"b", 150⟩⟩
    ⟨"b", "B", some ⟨"a", -200⟩⟩ ⟨"b", 150⟩ ⟨"a", -200⟩ rfl rfl
    (by decide) (by decide) (by decide)

/-- C8: when either team lacks an `upcomingGame`, the calculator returns 50
for each team id together with the fixed insight "Odds data not available.",
and (being a total function in the model) never throws. -/
theorem winProbability_missing_odds (teamA teamB : FTeam)
    (h : teamA.upcomingGame = none ∨ teamB.upcomingGame = none) :
    (calculateWinProbabilityFromOdds teamA teamB).lookup teamA.id = some 50 ∧
    (calculateWinProbabilityFromOdds teamA teamB).lookup teamB.id = some 50 ∧
    (calculateWinProbabilityFromOdds teamA teamB).insight =
      "Odds data not available." := by
  have hres : calculateWinProbabilityFromOdds teamA teamB =
      { entries := [(teamA.id, 50), (teamB.id, 50)]
        insight := "Odds data not available." } := by
    rcases h with h | h
    · unfold calculateWinProbabilityFromOdds
      rw [h]
    · unfold calculateWinProbabilityFromOdds
      rw [h]
      rcases teamA.upcomingGame <;> rfl
  rw [hres]
  refine ⟨?_, ?_, rfl⟩
  · by_cases hba : (teamB.id == teamA.id) = true
    · simp [WinProbResult.lookup, List.find?, hba]
    · simp only [Bool.not_eq_true] at hba
      simp [WinProbResult.lookup, List.find?, hba]
  · simp [WinProbResult.lookup, List.find?]

/-- C8 witness: a concrete pair where team A lacks upcoming-game odds. -/
theorem winProbability_missing_odds_witness :
    (calculateWinProbabilityFromOdds ⟨"a", "A", none⟩
      ⟨"b", "B", some ⟨"a", -200⟩⟩).lookup "a" = some 50 ∧
    (calculateWinProbabilityFromOdds ⟨"a", "A", none⟩
      ⟨"b", "B", some ⟨"a", -200⟩⟩).lookup "b" = some 50 ∧
    (calculateWinProbabilityFromOdds ⟨"a", "A", none⟩
      ⟨"b", "B", some ⟨"a", -200⟩⟩).insight = "Odds data not available." :=
  winProbability_missing_odds ⟨"a", "A", none⟩ ⟨"b", "B", some ⟨"a", -200⟩⟩
    (Or.inl rfl)

/-- C9: with moneylines +150 and −200 the calculator assigns the −200 team
the percentage 62.5 > 50, and the insight names that favorite team and its
rounded (63%) win percentage. -/
theorem winProbability_favorite_minus200 (teamA teamB : FTeam)
    (gA gB : UpcomingGame)
    (hA : teamA.upcomingGame = some gA) (hB : teamB.upcomingGame = some gB)
    (hmA : gA.moneyline = 150) (hmB : gB.moneyline = -200) :
    (calculateWinProbabilityFromOdds teamA teamB).lookup teamB.id =
      some (125 / 2) ∧
    ((125 : ℚ) / 2 > 50) ∧
    (calculateWinProbabilityFromOdds teamA teamB).insight =
      "The betting market implies a 63% chance for the favorite, the " ++
        teamB.name ++ ", to win." := by
  have e1 : convertAmericanToProbability gA.moneyline = 2 / 5 := by
    rw [hmA]; unfold convertAmericanToProbability; norm_num
  have e2 : convertAmericanToProbability gB.moneyline = 2 / 3 := by
    rw [hmB]; unfold convertAmericanToProbability; norm_num
  have hres : calculateWinProbabilityFromOdds teamA teamB =
      { entries := [(teamA.id, 75 / 2), (teamB.id, 125 / 2)]
        insight :=
          "The betting market implies a 63% chance for the favorite, the " ++
            teamB.name ++ ", to win." } := by
    unfold calculateWinProbabilityFromOdds
    rw [hA, hB]
    simp only [e1, e2]
    have hnA : (2 : ℚ) / 5 / (2 / 5 + 2 / 3) * 100 = 75 / 2 := by norm_num
    have hnB : (2 : ℚ) / 3 / (2 / 5 + 2 / 3) * 100 = 125 / 2 := by norm_num
    rw [hnA, hnB]
    have hcond : ¬ ((75 : ℚ) / 2 > 125 / 2) := by norm_num
    rw [if_neg hcond, if_neg hcond]
    have hround : jsRound (125 / 2) = 63 := by
      unfold jsRound
      rw [show (125 : ℚ) / 2 + 1 / 2 = ((63 : ℤ) : ℚ) by norm_num]
      exact Int.floor_intCast 63
    rw [hround]
    congr 1
  rw [hres]
  refine ⟨?_, by norm_num, rfl⟩
  simp [WinProbResult.lookup, List.find?]

/-- C9 witness: concrete teams with moneylines +150 and −200. -/
theorem winProbability_favorite_minus200_witness :
    (calculateWinProbabilityFromOdds ⟨"a", "A", some ⟨"b", 150⟩⟩
      ⟨"b", "B", some ⟨"a", -200⟩⟩).lookup "b" = some (125 / 2) ∧
    ((125 : ℚ) / 2 > 50) ∧
    (calculateWinProbabilityFromOdds ⟨"a", "A", some ⟨"b", 150⟩⟩
      ⟨"b", "B", some ⟨"a", -200⟩⟩).insight =
      "The betting market implies a 63% chance for the favorite, the B, to win." :=
  winProbability_favorite_minus200 ⟨"a", "A", some ⟨"b", 150⟩⟩
    ⟨"b", "B", some ⟨"a", -200⟩⟩ ⟨"b", 150⟩ ⟨"a", -200⟩ rfl rfl rfl rfl

/-- C2: a batch of one RawGame whose first bookmaker has a head-to-head
market with exactly the outcomes ("Team X", −110) and ("Team Y", +100)
transforms into exactly two team views, keyed "teamx" and "teamy", that
cross-reference each other as opponent and carry prices −110 and +100. -/
theorem transform_pair_cross_references (mk : MockOracle) (g : RawGame)
    (bms : List Bookmaker) (bm : Bookmaker) (ms : List Market) (mkt : Market)
    (h1 : g.bookmakers = some bms) (h2 : bms.head? = some bm)
    (h3 : bm.markets = some ms)
    (h4 : ms.find? (fun m => m.key == "h2h") = some mkt)
    (h5 : mkt.outcomes = [⟨"Team X", -110⟩, ⟨"Team Y", 100⟩]) :
    transformDataForFrontend mk [g] = .ok
      [("teamx",
        { id := "teamx", name := "Team X", conference := "N/A", price := -110
          mock := mk "Team X" "Team Y" (-110)
          qualitative := ⟨"Medium", "Established", "Optimistic", "Neutral"⟩
          upcomingGame := ⟨"Team Y", -110⟩ }),
       ("teamy",
        { id := "teamy", name := "Team Y", conference := "N/A", price := 100
          mock := mk "Team Y" "Team X" 100
          qualitative := ⟨"Medium", "Established", "Optimistic", "Neutral"⟩
          upcomingGame := ⟨"Team X", 100⟩ })] := by
  obtain ⟨bk⟩ := g
  obtain rfl : bk = some bms := h1
  obtain ⟨mm⟩ := bm
  obtain rfl : mm = some ms := h3
  cases bms with
  | nil => simp at h2
  | cons b t =>
    obtain rfl : b = ⟨some ms⟩ := by simpa using h2
    have hg : processGame mk [] ⟨some (⟨some ms⟩ :: t)⟩ =
        .ok (processTeam mk "Team Y" "Team X" ⟨"Team Y", 100⟩
              (processTeam mk "Team X" "Team Y" ⟨"Team X", -110⟩ [])) := by
      unfold processGame
      simp only [List.head?, h4, h5]
      rfl
    show List.foldlM (processGame mk) [] [⟨some (⟨some ms⟩ :: t)⟩] = _
    rw [List.foldlM_cons, hg]
    rfl

/-- C2 witness: the concrete one-game batch with outcomes ("Team X", −110)
and ("Team Y", +100). -/
theorem transform_pair_cross_references_witness :
    transformDataForFrontend mkZero
      [⟨some [⟨some [⟨"h2h", [⟨"Team X", -110⟩, ⟨"Team Y", 100⟩]⟩]⟩]⟩] = .ok
      [("teamx",
        { id := "teamx", name := "Team X", conference := "N/A", price := -110
          mock := mkZero "Team X" "Team Y" (-110)
          qualitative := ⟨"Medium", "Established", "Optimistic", "Neutral"⟩
          upcomingGame := ⟨"Team Y", -110⟩ }),
       ("teamy",
        { id := "teamy", name := "Team Y", conference := "N/A", price := 100
          mock := mkZero "Team Y" "Team X" 100
          qualitative := ⟨"Medium", "Established", "Optimistic", "Neutral"⟩
          upcomingGame := ⟨"Team X", 100⟩ })] :=
  transform_pair_cross_references mkZero
    ⟨some [⟨some [⟨"h2h", [⟨"Team X", -110⟩, ⟨"Team Y", 100⟩]⟩]⟩]⟩
    [⟨some [⟨"h2h", [⟨"Team X", -110⟩, ⟨"Team Y", 100⟩]⟩]⟩]
    ⟨some [⟨"h2h", [⟨"Team X", -110⟩, ⟨"Team Y", 100⟩]⟩]⟩
    [⟨"h2h", [⟨"Team X", -110⟩, ⟨"Team Y", 100⟩]⟩]
    ⟨"h2h", [⟨"Team X", -110⟩, ⟨"Team Y", 100⟩]⟩
    rfl rfl rfl rfl rfl

/-- C5 evidence: the transform is NOT total on malformed input.  A game with
a missing `bookmakers` array and a game whose first bookmaker lacks the
`markets` array each throw a TypeError (aborting the pass), while a game
whose first bookmaker merely has no head-to-head market is skipped without
failure. -/
theorem transform_malformed_behaviour :
    transformDataForFrontend mkZero [⟨none⟩] =
      .error "TypeError: cannot index undefined bookmakers" ∧
    transformDataForFrontend mkZero [⟨some [⟨none⟩]⟩] =
      .error "TypeError: cannot call find on undefined markets" ∧
    transformDataForFrontend mkZero [⟨some [⟨some [⟨"spreads", []⟩]⟩]⟩] =
      .ok [] :=
  ⟨rfl, rfl, rfl⟩

/-- Appending entries on the right never changes a successful association
list lookup. -/
theorem lookup_append_of_some {β : Type} (l1 l2 : List (String × β))
    (k : String) (v : β) (h : l1.lookup k = some v) :
    (l1 ++ l2).lookup k = some v := by
  induction l1 with
  | nil => simp at h
  | cons p t ih =>
    rcases p with ⟨k0, v0⟩
    rw [List.lookup_cons] at h
    rw [List.cons_append, List.lookup_cons]
    cases hk : k == k0 with
    | false =>
      rw [hk] at h
      exact ih h
    | true =>
      rw [hk] at h
      exact h

/-- C4 helper: `processTeam` never mutates or replaces an existing entry. -/
theorem processTeam_preserves (mk : MockOracle) (tn opp : String)
    (market : Outcome) (td : List (String × TeamView)) (k : String)
    (v : TeamView) (h : td.lookup k = some v) :
    (processTeam mk tn opp market td).lookup k = some v := by
  unfold processTeam
  by_cases hp : (td.lookup (normalizeId tn)).isSome
  · simpa [hp] using h
  · simp only [Bool.not_eq_true] at hp
    simp only [hp, Bool.false_eq_true, if_false]
    exact lookup_append_of_some _ _ _ _ h

/-- C4 helper: a successful `processGame` step never mutates or replaces an
existing entry. -/
theorem processGame_preserves (mk : MockOracle)
    (td : List (String × TeamView)) (g : RawGame)
    (td' : List (String × TeamView)) (k : String) (v : TeamView)
    (h : processGame mk td g = .ok td') (hv : td.lookup k = some v) :
    td'.lookup k = some v := by
  rcases g with ⟨_ | bms⟩
  · exact absurd h (by simp [processGame])
  · rcases bms with _ | ⟨⟨mm⟩, t⟩
    · rw [show processGame mk td ⟨some []⟩ = .ok td from rfl] at h
      cases h
      exact hv
    · rcases mm with _ | ms
      · exact absurd h (by simp [processGame])
      · have hh : processGame mk td ⟨some (⟨some ms⟩ :: t)⟩ =
            (match ms.find? (fun m => m.key == "h2h") with
             | none => .ok td
             | some moneylineMarket =>
               match moneylineMarket.outcomes[0]?, moneylineMarket.outcomes[1]? with
               | some team1, some team2 =>
                 .ok (processTeam mk team2.name team1.name team2
                   (processTeam mk team1.name team2.name team1 td))
               | _, _ =>
                 .error "TypeError: cannot read name of undefined outcome") := rfl
        rw [hh] at h
        cases hf : ms.find? (fun m => m.key == "h2h") with
        | none =>
          rw [hf] at h
          have h2 : Except.ok td = Except.ok td' := h
          cases h2
          exact hv
        | some mkt =>
          rw [hf] at h
          have h2 : (match mkt.outcomes[0]?, mkt.outcomes[1]? with
              | some team1, some team2 =>
                Except.ok (processTeam mk team2.name team1.name team2
                  (processTeam mk team1.name team2.name team1 td))
              | _, _ =>
                (.error "TypeError: cannot read name of undefined outcome" :
                  Except String (List (String × TeamView)))) =
              Except.ok td' := h
          cases ho1 : mkt.outcomes[0]? with
          | none =>
            rw [ho1] at h2
            cases ho2 : mkt.outcomes[1]? with
            | none =>
              rw [ho2] at h2
              exact Except.noConfusion h2
            | some t2 =>
              rw [ho2] at h2
              exact Except.noConfusion h2
          | some t1 =>
            rw [ho1] at h2
            cases ho2 : mkt.outcomes[1]? with
            | none =>
              rw [ho2] at h2
              exact Except.noConfusion h2
            | some t2 =>
              rw [ho2] at h2
              have h3 : Except.ok (processTeam mk t2.name t1.name t2
                  (processTeam mk t1.name t2.name t1 td)) = Except.ok td' := h2
              cases h3
              exact processTeam_preserves _ _ _ _ _ _ _
                (processTeam_preserves _ _ _ _ _ _ _ hv)

/-- C4 helper: the whole fold over later games preserves every entry already
present in the accumulator. -/
theorem foldl_processGame_preserves (mk : MockOracle) (games : List RawGame) :
    ∀ (init m : List (String × TeamView)) (k : String) (v : TeamView),
      init.lookup k = some v →
      List.foldlM (processGame mk) init games = .ok m →
      m.lookup k = some v := by
  induction games with
  | nil =>
    intro init m k v hv h
    cases h
    exact hv
  | cons g gs ih =>
    intro init m k v hv h
    rw [List.foldlM_cons] at h
    cases hpg : processGame mk init g with
    | error e =>
      rw [hpg] at h
      exact Except.noConfusion h
    | ok mid =>
      rw [hpg] at h
      exact ih mid m k v (processGame_preserves mk init g mid k v hpg hv) h

/-- C4: within one transform pass, once a team view has been created for a
normalized id, later games in the batch leave that entry exactly as first
created — extending the batch with further games never changes an entry the
prefix already produced, including when two distinct team names collide
after normalization. -/
theorem transform_first_seen_wins (mk : MockOracle)
    (early rest : List RawGame) (m1 m : List (String × TeamView))
    (k : String) (v : TeamView)
    (h1 : transformDataForFrontend mk early = .ok m1)
    (h : transformDataForFrontend mk (early ++ rest) = .ok m)
    (hv : m1.lookup k = some v) :
    m.lookup k = some v := by
  unfold transformDataForFrontend at h1 h
  rw [List.foldlM_append, h1] at h
  exact foldl_processGame_preserves mk rest m1 m k v hv h

/-- Setting a key in the JS-map model makes it the value found by lookup,
whether the key was fresh or overwritten. -/
theorem mapSet_lookup_self {β : Type} (l : List (String × β)) (k : String)
    (e : β) : (mapSet l k e).lookup k = some e := by
  unfold mapSet
  by_cases hp : (l.lookup k).isSome
  · rw [if_pos hp]
    induction l with
    | nil => simp at hp
    | cons p t ih =>
      rcases p with ⟨k0, v0⟩
      by_cases hk : k0 = k
      · subst hk
        simp [List.lookup_cons]
      · have hk2 : (k0 == k) = false := by simp [hk]
        have hk3 : (k == k0) = false := by simp [Ne.symm hk]
        rw [List.lookup_cons, hk3] at hp
        simp only [List.map_cons, hk2, Bool.false_eq_true, if_false]
        rw [List.lookup_cons, hk3]
        exact ih hp
  · rw [if_neg hp]
    simp only [Bool.not_eq_true, Option.not_isSome_iff_eq_none] at hp
    induction l with
    | nil => simp
    | cons p t ih =>
      rcases p with ⟨k0, v0⟩
      rw [List.lookup_cons] at hp
      rw [List.cons_append, List.lookup_cons]
      cases hk : k == k0 with
      | false =>
        rw [hk] at hp
        exact ih hp
      | true =>
        rw [hk] at hp
        exact Bool.noConfusion hp

/-- Deleting a key in the JS-map model removes it from lookup. -/
theorem mapDelete_lookup_self {β : Type} (l : List (String × β))
    (k : String) : (mapDelete l k).lookup k = none := by
  unfold mapDelete
  induction l with
  | nil => simp
  | cons p t ih =>
    rcases p with ⟨k0, v0⟩
    rw [List.filter_cons]
    cases hk : k0 == k with
    | false =>
      have hk3 : (k == k0) = false := by
        have : k0 ≠ k := by simpa using hk
        simp [Ne.symm this]
      simp only [hk, Bool.not_false, if_true]
      rw [List.lookup_cons, hk3]
      exact ih
    | true =>
      simp only [hk, Bool.not_true, Bool.false_eq_true, if_false]
      exact ih

/-- C3: with caching enabled, after `set(k, v)` at time `now0` a `get(k)` at
a time still inside the TTL window returns `v`, and a `get(k)` at a time
outside the window returns absent and removes the expired entry from the
cache. -/
theorem cache_set_get_ttl {A : Type} (cacheTtl : Int) (k : String) (v : A)
    (now0 nowF nowE : Int) (cache : List (String × CacheEntry A))
    (hF : nowF - now0 < cacheTtl * 1000)
    (hE : ¬ nowE - now0 < cacheTtl * 1000) :
    (getCachedData true cacheTtl nowF (setCachedData true now0 cache k v) k).1
      = some v ∧
    (getCachedData true cacheTtl nowE (setCachedData true now0 cache k v) k).1
      = none ∧
    ((getCachedData true cacheTtl nowE
        (setCachedData true now0 cache k v) k).2.lookup k) = none := by
  have hset : (setCachedData true now0 cache k v).lookup k =
      some ⟨v, now0⟩ := by
    unfold setCachedData
    exact mapSet_lookup_self cache k ⟨v, now0⟩
  have hget : ∀ now : Int,
      getCachedData true cacheTtl now (setCachedData true now0 cache k v) k =
      if now - now0 < cacheTtl * 1000
      then (some v, setCachedData true now0 cache k v)
      else (none, mapDelete (setCachedData true now0 cache k v) k) := by
    intro now
    unfold getCachedData
    rw [hset]
    rfl
  refine ⟨?_, ?_, ?_⟩
  · rw [hget nowF, if_pos hF]
  · rw [hget nowE, if_neg hE]
  · rw [hget nowE, if_neg hE]
    exact mapDelete_lookup_self _ k

/-- C3 witness: a 60-second TTL, a store at time 0, a hit at 1 second and an
expiry at 60 seconds. -/
theorem cache_set_get_ttl_witness :
    (getCachedData true 60 1000 (setCachedData true 0 [] "k" (7 : ℕ)) "k").1
      = some 7 ∧
    (getCachedData true 60 60000 (setCachedData true 0 [] "k" (7 : ℕ)) "k").1
      = none ∧
    ((getCachedData true 60 60000
        (setCachedData true 0 [] "k" (7 : ℕ)) "k").2.lookup "k") = none :=
  cache_set_get_ttl 60 "k" 7 0 1000 60000 [] (by decide) (by decide)

/-- C6 counterexample: the two parameter lists hold exactly the same
key-value pairs (they are permutations of each other), yet the cache keys
differ because `JSON.stringify` serializes in insertion order. -/
theorem getCacheKey_order_sensitive :
    ([("a", "1"), ("b", "2")] : List (String × String)).Perm
      [("b", "2"), ("a", "1")] ∧
    getCacheKey "nba-data" [("a", "1"), ("b", "2")] ≠
      getCacheKey "nba-data" [("b", "2"), ("a", "1")] := by
  constructor
  · exact List.Perm.swap ("b", "2") ("a", "1") []
  · decide

/-- C6 amended: the cache key is a deterministic function of the endpoint
and the parameter list in its insertion order; parameter sets that differ
only in insertion order may produce different keys. -/
theorem getCacheKey_deterministic (endpoint : String)
    (p1 p2 : List (String × String)) (h : p1 = p2) :
    getCacheKey endpoint p1 = getCacheKey endpoint p2 := by
  rw [h]

/-- C6 amended witness: identical ordered parameter lists give the same
key. -/
theorem getCacheKey_deterministic_witness :
    getCacheKey "nba-data" [("a", "1")] = getCacheKey "nba-data" [("a", "1")] :=
  getCacheKey_deterministic "nba-data" [("a", "1")] [("a", "1")] rfl

/-- C7: when the request is not served from cache and the API key is not
configured (absent or empty), the handler replies 500 with the
"API key not configured" error body and the upstream provider is never
called, whatever the upstream oracle would have answered. -/
theorem nbaData_missing_key_no_upstream (cfg : Config) (now : Int)
    (cache : List (String × CacheEntry (List (String × TeamView))))
    (query : List (String × String)) (upstream : UpstreamResult)
    (mk : MockOracle)
    (hmiss : (getCachedData cfg.enableCache cfg.cacheTtl now cache
      (getCacheKey "nba-data" query)).1 = none)
    (hkey : jsTruthyStr cfg.apiKey = false) :
    (nbaDataHandler cfg now cache query upstream mk).status = 500 ∧
    (nbaDataHandler cfg now cache query upstream mk).body =
      .failure "API key not configured"
        "Please set ODDS_API_KEY environment variable" ∧
    (nbaDataHandler cfg now cache query upstream mk).upstreamCalled
      = false := by
  simp only [nbaDataHandler]
  rw [hmiss, hkey]
  exact ⟨rfl, rfl, rfl⟩

/-- C7 witness: empty cache, no API key, an upstream oracle that would time
out — the handler still answers 500 without calling upstream. -/
theorem nbaData_missing_key_no_upstream_witness :
    (nbaDataHandler ⟨none, "basketball_nba", "us", "h2h,spreads", "american",
        60, true⟩ 0 [] [] .timeout mkZero).status = 500 ∧
    (nbaDataHandler ⟨none, "basketball_nba", "us", "h2h,spreads", "american",
        60, true⟩ 0 [] [] .timeout mkZero).body =
      .failure "API key not configured"
        "Please set ODDS_API_KEY environment variable" ∧
    (nbaDataHandler ⟨none, "basketball_nba", "us", "h2h,spreads", "american",
        60, true⟩ 0 [] [] .timeout mkZero).upstreamCalled = false :=
  nbaData_missing_key_no_upstream
    ⟨none, "basketball_nba", "us", "h2h,spreads", "american", 60, true⟩
    0 [] [] .timeout mkZero rfl rfl

/-- C10 helper: every successful `processGame` step returns either the
unchanged accumulator or the accumulator extended by processing the two
outcomes of the head-to-head market. -/
theorem processGame_result_cases (mk : MockOracle)
    (td : List (String × TeamView)) (g : RawGame)
    (td' : List (String × TeamView))
    (h : processGame mk td g = .ok td') :
    td' = td ∨ ∃ t1 t2 : Outcome,
      td' = processTeam mk t2.name t1.name t2
        (processTeam mk t1.name t2.name t1 td) := by
  rcases g with ⟨_ | bms⟩
  · exact absurd h (by simp [processGame])
  · rcases bms with _ | ⟨⟨mm⟩, t⟩
    · rw [show processGame mk td ⟨some []⟩ = .ok td from rfl] at h
      cases h
      exact Or.inl rfl
    · rcases mm with _ | ms
      · exact absurd h (by simp [processGame])
      · have hh : processGame mk td ⟨some (⟨some ms⟩ :: t)⟩ =
            (match ms.find? (fun m => m.key == "h2h") with
             | none => .ok td
             | some moneylineMarket =>
               match moneylineMarket.outcomes[0]?, moneylineMarket.outcomes[1]? with
               | some team1, some team2 =>
                 .ok (processTeam mk team2.name team1.name team2
                   (processTeam mk team1.name team2.name team1 td))
               | _, _ =>
                 .error "TypeError: cannot read name of undefined outcome") := rfl
        rw [hh] at h
        cases hf : ms.find? (fun m => m.key == "h2h") with
        | none =>
          rw [hf] at h
          have h2 : Except.ok td = Except.ok td' := h
          cases h2
          exact Or.inl rfl
        | some mkt =>
          rw [hf] at h
          have h2 : (match mkt.outcomes[0]?, mkt.outcomes[1]? with
              | some team1, some team2 =>
                Except.ok (processTeam mk team2.name team1.name team2
                  (processTeam mk team1.name team2.name team1 td))
              | _, _ =>
                (.error "TypeError: cannot read name of undefined outcome" :
                  Except String (List (String × TeamView)))) =
              Except.ok td' := h
          cases ho1 : mkt.outcomes[0]? with
          | none =>
            rw [ho1] at h2
            cases ho2 : mkt.outcomes[1]? with
            | none =>
              rw [ho2] at h2
              exact Except.noConfusion h2
            | some t2 =>
              rw [ho2] at h2
              exact Except.noConfusion h2
          | some t1 =>
            rw [ho1] at h2
            cases ho2 : mkt.outcomes[1]? with
            | none =>
              rw [ho2] at h2
              exact Except.noConfusion h2
            | some t2 =>
              rw [ho2] at h2
              have h3 : Except.ok (processTeam mk t2.name t1.name t2
                  (processTeam mk t1.name t2.name t1 td)) =
                  Except.ok td' := h2
              cases h3
              exact Or.inr ⟨t1, t2, rfl⟩

/-- C10 helper: `processTeam` preserves the invariant that every stored view
has `price` equal to `upcomingGame.moneyline` (a fresh view copies both from
the same outcome price). -/
theorem processTeam_priceInv (mk : MockOracle) (tn opp : String)
    (market : Outcome) (td : List (String × TeamView))
    (h : td.all (fun p => p.2.price == p.2.upcomingGame.moneyline) = true) :
    (processTeam mk tn opp market td).all
      (fun p => p.2.price == p.2.upcomingGame.moneyline) = true := by
  unfold processTeam
  by_cases hp : (td.lookup (normalizeId tn)).isSome
  · simpa [hp] using h
  · simp only [Bool.not_eq_true] at hp
    simp [hp, List.all_append, h]

/-- C10 helper: the fold over all games preserves the price/moneyline
invariant. -/
theorem foldl_processGame_priceInv (mk : MockOracle) (games : List RawGame) :
    ∀ init m : List (String × TeamView),
      init.all (fun p => p.2.price == p.2.upcomingGame.moneyline) = true →
      List.foldlM (processGame mk) init games = .ok m →
      m.all (fun p => p.2.price == p.2.upcomingGame.moneyline) = true := by
  induction games with
  | nil =>
    intro init m hinv h
    cases h
    exact hinv
  | cons g gs ih =>
    intro init m hinv h
    rw [List.foldlM_cons] at h
    cases hpg : processGame mk init g with
    | error e =>
      rw [hpg] at h
      exact Except.noConfusion h
    | ok mid =>
      rw [hpg] at h
      refine ih mid m ?_ h
      rcases processGame_result_cases mk init g mid hpg with rfl | ⟨t1, t2, rfl⟩
      · exact hinv
      · exact processTeam_priceInv _ _ _ _ _ (processTeam_priceInv _ _ _ _ _ hinv)

/-- C10: in every map produced by a successful transform, every team view
satisfies `price = upcomingGame.moneyline` (both are copied from the price
of the outcome belonging to that team when the view is first created). -/
theorem transform_price_eq_moneyline (mk : MockOracle) (games : List RawGame)
    (m : List (String × TeamView))
    (h : transformDataForFrontend mk games = .ok m) :
    m.all (fun p => p.2.price == p.2.upcomingGame.moneyline) = true := by
  unfold transformDataForFrontend at h
  exact foldl_processGame_priceInv mk games [] m rfl h

/-- C10 witness: the concrete Team X / Team Y batch. -/
theorem transform_price_eq_moneyline_witness :
    ([("teamx",
      ({ id := "teamx", name := "Team X", conference := "N/A", price := -110
         mock := mkZero "Team X" "Team Y" (-110)
         qualitative := ⟨"Medium", "Established", "Optimistic", "Neutral"⟩
         upcomingGame := ⟨"Team Y", -110⟩ } : TeamView)),
      ("teamy",
      ({ id := "teamy", name := "Team Y", conference := "N/A", price := 100
         mock := mkZero "Team Y" "Team X" 100
         qualitative := ⟨"Medium", "Established", "Optimistic", "Neutral"⟩
         upcomingGame := ⟨"Team X", 100⟩ } : TeamView))] :
        List (String × TeamView)).all
      (fun p => p.2.price == p.2.upcomingGame.moneyline) = true :=
  transform_price_eq_moneyline mkZero
    [⟨some [⟨some [⟨"h2h", [⟨"Team X", -110⟩, ⟨"Team Y", 100⟩]⟩]⟩]⟩] _ rfl

/-- C4 witness: "LA Team" and "LATeam" normalize to the same id "lateam";
after a second game mentioning "LATeam", the entry for "lateam" still holds
the view first created for "LA Team". -/
theorem transform_first_seen_wins_witness :
    ([("lateam",
      ({ id := "lateam", name := "LA Team", conference := "N/A", price := -110
         mock := mkZero "LA Team" "Rivals" (-110)
         qualitative := ⟨"Medium", "Established", "Optimistic", "Neutral"⟩
         upcomingGame := ⟨"Rivals", -110⟩ } : TeamView)),
      ("rivals",
      ({ id := "rivals", name := "Rivals", conference := "N/A", price := 100
         mock := mkZero "Rivals" "LA Team" 100
         qualitative := ⟨"Medium", "Established", "Optimistic", "Neutral"⟩
         upcomingGame := ⟨"LA Team", 100⟩ } : TeamView)),
      ("other",
      ({ id := "other", name := "Other", conference := "N/A", price := -140
         mock := mkZero "Other" "LATeam" (-140)
         qualitative := ⟨"Medium", "Established", "Optimistic", "Neutral"⟩
         upcomingGame := ⟨"LATeam", -140⟩ } : TeamView))] :
        List (String × TeamView)).lookup "lateam" =
      some
      { id := "lateam", name := "LA Team", conference := "N/A", price := -110
        mock := mkZero "LA Team" "Rivals" (-110)
        qualitative := ⟨"Medium", "Established", "Optimistic", "Neutral"⟩
        upcomingGame := ⟨"Rivals", -110⟩ } :=
  transform_first_seen_wins mkZero
    [⟨some [⟨some [⟨"h2h", [⟨"LA Team", -110⟩, ⟨"Rivals", 100⟩]⟩]⟩]⟩]
    [⟨some [⟨some [⟨"h2h", [⟨"LATeam", 120⟩, ⟨"Other", -140⟩]⟩]⟩]⟩]
    _ _ "lateam" _ rfl rfl rfl

end SportsAnalytic
